import Mathlib

/-!
Shallow embedding of the circuit-simulation worker (`simulation-worker.js`) of the
virtual-electronics repository, together with theorems settling the frozen claims
about it.

Modelling conventions:
* JavaScript numbers are modelled by `ℚ`.  Non-finite values (NaN / Infinity) are
  not representable; the worker's `isValidNumber` checks therefore hold for every
  model value, and where a code path tests for non-numbers the input is modelled
  as an `Option ℚ` (`none` = not a finite number).  Division by zero is `0` in the
  model (JS would give `Infinity`); the spots where this could matter are noted at
  the definitions.
* `Math.sin`, `Math.sqrt` and `Math.PI` are transcendental and are abstracted as a
  `MathOracle` record passed to every function that uses them; all theorems hold
  for every oracle, in particular for the true sine, square root and pi.
* JavaScript objects with optional fields are modelled as structures whose
  optional fields have type `Option ℚ`; the JS truthiness test `x || d` on numbers
  is `jsOr` (`none` and `some 0` are falsy), and on strings `jsOrStr` (`none` and
  the empty string are falsy).
* The worker stores components and wires in arrays and looks them up through
  id-keyed maps built with last-write-wins `Map.set`.  Components created by the
  editor receive globally unique ids, so lookups are modelled by `List.find?` on
  the component list and an in-place mutation of the looked-up object is modelled
  by rewriting the (unique) entry with that id.
-/

namespace CircuitSim

/-- Abstraction of the transcendental parts of JavaScript's `Math` object used by
the worker (`Math.sin`, `Math.sqrt`, `Math.PI`).  The embedding stays executable
over `ℚ` by treating them as an oracle parameter. -/
structure MathOracle where
  sin : ℚ → ℚ
  sqrt : ℚ → ℚ
  pi : ℚ

/-- JavaScript `x || d` for an optional numeric field: `undefined` and `0` are
falsy and select the default. -/
def jsOr (x : Option ℚ) (d : ℚ) : ℚ :=
  match x with
  | none => d
  | some v => if v = 0 then d else v

/-- JavaScript `x || d` for an optional string field: `undefined` and the empty
string are falsy and select the default. -/
def jsOrStr (x : Option String) (d : String) : String :=
  match x with
  | none => d
  | some s => if s == "" then d else s

/-- JavaScript truthiness of an optional numeric field (`!x` is `true` exactly
when the field is `undefined` or `0`; NaN is not representable over `ℚ`). -/
def jsFalsy (x : Option ℚ) : Bool :=
  match x with
  | none => true
  | some v => v == 0

/-- Truncation toward zero, as used by the JavaScript remainder operator. -/
def truncQ (x : ℚ) : ℤ :=
  if 0 ≤ x then ⌊x⌋ else ⌈x⌉

/-- JavaScript's `%` remainder on numbers: `a - b * trunc(a / b)`, keeping the
sign of the dividend.  (`a % 0` is NaN in JS; modelled as `0`, unreachable on the
paths the worker takes.) -/
def jsMod (a b : ℚ) : ℚ :=
  if b = 0 then 0 else a - b * (truncQ (a / b) : ℚ)

/-- JavaScript `Math.sign`. -/
def jsSign (x : ℚ) : ℚ :=
  if 0 < x then 1 else if x < 0 then -1 else 0

/-- `parseFloat(x.toFixed(n))`: rounding to `n` decimal places.  JS `toFixed`
rounds to the nearest representable decimal; modelled as rounding to the nearest
multiple of `10 ^ (-n)`. -/
def roundTo (n : ℕ) (x : ℚ) : ℚ :=
  (round (x * 10 ^ n) : ℚ) / 10 ^ n

/-- The worker's `isValidNumber` (`typeof x === 'number' ∧ isFinite x ∧ ¬ NaN x`):
every `ℚ` of the model is a finite number, so it is constantly `true`. -/
def isValidNumber (_x : ℚ) : Bool := true

/-- The `values` record the simulation writes on every component each step. -/
structure Values where
  voltage : ℚ
  current : ℚ
  power : ℚ
deriving DecidableEq, Repr

/-- Waveform parameters of a source component (`component.parameters` in the
worker); every field is optional, mirroring the duck typing of the source. -/
structure SourceParameters where
  amplitude : Option ℚ
  frequency : Option ℚ
  dcOffset : Option ℚ
  waveform : Option String
deriving DecidableEq, Repr

/-- A component as the worker sees it: the stable `id` and `type`, the `values`
output record, the duck-typed direct numeric fields (`component.voltage`,
`component.resistance`, `component.value`, ...) that may be absent, the
`parameters` record used by `processVoltageSource`, and the numeric payloads of
the editor-created `properties` records (`properties.voltage.value`,
`properties.resistance.value`, `properties.frequency.value`,
`properties.waveform.value`) that `performDCAnalysis` and `performACAnalysis`
read.  Editor-created components always carry these `properties` with defaulted
values, so they are modelled as total fields. -/
structure Component where
  id : String
  type : String
  values : Values
  voltage : Option ℚ
  current : Option ℚ
  resistance : Option ℚ
  capacitance : Option ℚ
  inductance : Option ℚ
  value : Option ℚ
  parameters : Option SourceParameters
  propertiesVoltage : ℚ
  propertiesResistance : ℚ
  propertiesFrequency : ℚ
  propertiesWaveform : Option String
deriving DecidableEq, Repr

/-- A wire: endpoint component ids in the two naming conventions the worker uses
(`startComponent` / `endComponent` and `source.componentId` /
`target.componentId`), plus the derived `current` and `voltage`. -/
structure Wire where
  id : String
  startComponent : String
  endComponent : String
  source : Option String
  target : Option String
  current : ℚ
  voltage : ℚ
deriving DecidableEq, Repr

/-- Default component used only as the out-of-range default of `List.getD`. -/
def defaultComponent : Component :=
  { id := "", type := "", values := { voltage := 0, current := 0, power := 0 },
    voltage := none, current := none, resistance := none, capacitance := none,
    inductance := none, value := none, parameters := none,
    propertiesVoltage := 0, propertiesResistance := 0, propertiesFrequency := 0,
    propertiesWaveform := none }

/-- Lookup of a component by id (`componentsById[id]`; ids are unique, see the
module comment). -/
def findComponent (comps : List Component) (i : String) : Option Component :=
  comps.find? (fun c => c.id == i)

/-- Entry lookup in an id-keyed object/Map modelled as an association list. -/
def lookupEntry {α : Type} (l : List (String × α)) (k : String) : Option α :=
  (l.find? (fun p => p.1 == k)).map (fun p => p.2)

/-- Entry update in an id-keyed object/Map: overwrite the existing entry for the
key or append a fresh one. -/
def setEntry {α : Type} (l : List (String × α)) (k : String) (v : α) :
    List (String × α) :=
  if (l.find? (fun p => p.1 == k)).isSome then
    l.map (fun p => if p.1 == k then (k, v) else p)
  else l ++ [(k, v)]

/-- Sum of a list of rationals, as the worker's `reduce((acc, val) => acc + val, 0)`. -/
def listSumQ (l : List ℚ) : ℚ := l.foldl (fun a b => a + b) 0

/-- Insertion into a sorted list, used to model `sort((a, b) => a - b)`. -/
def sortedInsert (x : ℚ) : List ℚ → List ℚ
  | [] => [x]
  | y :: ys => if x ≤ y then x :: y :: ys else y :: sortedInsert x ys

/-- Ascending sort of a list of numbers (`[...values].sort((a, b) => a - b)`). -/
def sortQ : List ℚ → List ℚ
  | [] => []
  | x :: xs => sortedInsert x (sortQ xs)

/-- The median computation of `enhancedStabilityFilter`: sort ascending, take the
middle element, averaging the two middle elements for even length. -/
def medianOf (l : List ℚ) : ℚ :=
  let sorted := sortQ l
  let mid := sorted.length / 2
  if sorted.length % 2 == 0 then ((sorted.getD (mid - 1) 0) + sorted.getD mid 0) / 2
  else sorted.getD mid 0

/-- The hard output clamp of `enhancedStabilityFilter` (`maxLimit = 1000`). -/
def clamp1000 (x : ℚ) : ℚ := max (-1000) (min 1000 x)

/-- Per-quantity history record kept by the enhanced stability filter
(`componentValueHistory[id].voltage` / `.current` in the worker). -/
structure QuantityHistory where
  values : List ℚ
  movingAvg : ℚ
  exponentialAvg : ℚ
  variance : ℚ
  fluctuationCount : ℚ
  steadyCount : ℚ
  lastUpdate : ℚ
deriving DecidableEq, Repr

/-- The history-update half of the worker's `enhancedStabilityFilter`: push the
raw value into the bounded window (last 10 values), recompute moving average and
smoothed variance, update the fluctuation / steadiness counters from the
normalised difference to the exponential average, and advance the exponential
average with the adaptive, time-weighted alpha. -/
def filterUpdateHistory (v : ℚ) (history : QuantityHistory) (currentTime : ℚ) :
    QuantityHistory :=
  let timeDelta := currentTime - history.lastUpdate
  let timeWeight := min 1 (timeDelta * 10)
  let values1 := history.values ++ [v]
  let values2 := if values1.length > 10 then values1.tail else values1
  let movingAvg := listSumQ values2 / (values2.length : ℚ)
  let variance := (values2.foldl (fun s x => s + (x - movingAvg) ^ 2) 0) / (values2.length : ℚ)
  let smoothedVariance := 0.8 * history.variance + 0.2 * variance
  let normalizedDiff :=
    |v - history.exponentialAvg| /
      (if |history.exponentialAvg| = 0 then 0.01 else |history.exponentialAvg|)
  let fluct :=
    if normalizedDiff > 0.15 then history.fluctuationCount + 1
    else max 0 (history.fluctuationCount - 0.5)
  let steady := if normalizedDiff > 0.15 then 0 else history.steadyCount + 1
  let alpha :=
    if fluct > 5 then 0.05
    else if fluct > 2 then 0.1
    else if steady > 10 then 0.5
    else (0.3 : ℚ)
  let exponentialAvg := alpha * timeWeight * v + (1 - alpha * timeWeight) * history.exponentialAvg
  { values := values2, movingAvg := movingAvg, exponentialAvg := exponentialAvg,
    variance := smoothedVariance, fluctuationCount := fluct, steadyCount := steady,
    lastUpdate := currentTime }

/-- The output-selection half of the worker's `enhancedStabilityFilter`, reading
the fields the update half just wrote (the source reads the same quantities from
its local variables): median for a highly fluctuating signal, exponential
average for a moderately fluctuating one, a 70/30 raw/exponential blend for a
stable one, all clamped to the hard safety bound. -/
def filterOutput (v : ℚ) (h2 : QuantityHistory) : ℚ :=
  clamp1000
    (if h2.fluctuationCount > 5 then medianOf h2.values
     else if h2.fluctuationCount > 2 then h2.exponentialAvg
     else 0.7 * v + 0.3 * h2.exponentialAvg)

/-- The worker's `enhancedStabilityFilter`: takes the new raw value (`none`
models a non-number / NaN / Infinity input, which returns `0` without touching
the history), the per-quantity history and the current simulated time; returns
the filtered output together with the updated history. -/
def enhancedStabilityFilter (newValue : Option ℚ) (history : QuantityHistory)
    (currentTime : ℚ) : ℚ × QuantityHistory :=
  match newValue with
  | none => (0, history)
  | some v =>
    let h2 := filterUpdateHistory v history currentTime
    (filterOutput v h2, h2)

/-- The pair of per-quantity histories kept for one component. -/
structure ComponentHistory where
  voltage : QuantityHistory
  current : QuantityHistory
deriving DecidableEq, Repr

/-- Fresh per-quantity history initialised by `applyStabilityFilter` when a
component has no history yet (moving and exponential averages seeded with the
component's present value). -/
def initQuantityHistory (v : ℚ) (t : ℚ) : QuantityHistory :=
  { values := [], movingAvg := v, exponentialAvg := v, variance := 0,
    fluctuationCount := 0, steadyCount := 0, lastUpdate := t }

/-- The worker's `applyStabilityFilter`: voltage and current sources are exempt
and pass through untouched; otherwise the component's history is created on
demand, both quantities run through `enhancedStabilityFilter`, and the filtered
values overwrite `values.voltage` / `values.current` and the direct
`component.voltage` / `component.current` fields when those exist. -/
def applyStabilityFilter (histories : List (String × ComponentHistory))
    (component : Component) (time : ℚ) :
    List (String × ComponentHistory) × Component :=
  if component.type == "voltage-source" || component.type == "current-source" then
    (histories, component)
  else
    let freshHistory : ComponentHistory :=
      { voltage := initQuantityHistory component.values.voltage time,
        current := initQuantityHistory component.values.current time }
    let histories1 :=
      if (lookupEntry histories component.id).isSome then histories
      else setEntry histories component.id freshHistory
    let history := (lookupEntry histories1 component.id).getD freshHistory
    let fv := enhancedStabilityFilter (some component.values.voltage) history.voltage time
    let fc := enhancedStabilityFilter (some component.values.current) history.current time
    let component1 :=
      { component with
        values := { voltage := fv.1, current := fc.1, power := component.values.power },
        voltage := if component.voltage.isSome then some fv.1 else component.voltage,
        current := if component.current.isSome then some fc.1 else component.current }
    (setEntry histories1 component.id { voltage := fv.2, current := fc.2 }, component1)

/-- `n` successive simulation steps' worth of `applyStabilityFilter` applications
to one component (the filter runs once per step on each component). -/
def applyStabilityFilterIter (histories : List (String × ComponentHistory))
    (component : Component) (time : ℚ) :
    ℕ → List (String × ComponentHistory) × Component
  | 0 => (histories, component)
  | n + 1 =>
    let r := applyStabilityFilterIter histories component time n
    applyStabilityFilter r.1 r.2 time

/-- One entry of the legacy (fixed-window) stability tracker's `prevValues` Map,
as used by `applyStabilization`. -/
structure ValueData where
  values : List ℚ
  average : ℚ
  smoothed : ℚ
deriving DecidableEq, Repr

/-- The worker-global `simulationState.stabilityTracker`. -/
structure StabilityTracker where
  samplesCollected : ℕ
  maxSamples : ℕ
  prevValues : List (String × ValueData)
  smoothingFactor : ℚ
  varianceThreshold : ℚ
deriving DecidableEq, Repr

/-- The worker's `applyStabilization(componentId, type, newValue)`: keyed by
`componentId ++ "-" ++ type` in the tracker's `prevValues` Map; first call for a
key stores the value and returns it unchanged, later calls keep a window of at
most `maxSamples` values, update average, exponential smoothing and variance, and
return the smoothed value when the variance exceeds `varianceThreshold`, the raw
value otherwise.  Returns the chosen value together with the updated tracker. -/
def applyStabilization (tracker : StabilityTracker) (componentId : String)
    (qtype : String) (newValue : ℚ) : ℚ × StabilityTracker :=
  let key := componentId ++ "-" ++ qtype
  match lookupEntry tracker.prevValues key with
  | none =>
    let entry : ValueData := { values := [newValue], average := newValue, smoothed := newValue }
    (newValue, { tracker with prevValues := setEntry tracker.prevValues key entry })
  | some valueData =>
    let values1 := valueData.values ++ [newValue]
    let values2 := if values1.length > tracker.maxSamples then values1.tail else values1
    let average := listSumQ values2 / (values2.length : ℚ)
    let smoothed :=
      tracker.smoothingFactor * newValue + (1 - tracker.smoothingFactor) * valueData.smoothed
    let variance := (values2.foldl (fun s v => s + (v - average) ^ 2) 0) / (values2.length : ℚ)
    let entry : ValueData := { values := values2, average := average, smoothed := smoothed }
    let tracker1 := { tracker with prevValues := setEntry tracker.prevValues key entry }
    (if variance > tracker.varianceThreshold then smoothed else newValue, tracker1)

/-- Per-component entry of the fixed-window `componentValueHistory` created by
`initializeValueHistory` (arrays of `VALUES_HISTORY_SIZE = 5` samples). -/
structure LegacyComponentHistory where
  voltage : List ℚ
  current : List ℚ
deriving DecidableEq, Repr

/-- Per-wire entry of the fixed-window `wireValueHistory`. -/
structure LegacyWireHistory where
  current : List ℚ
deriving DecidableEq, Repr

/-- The worker-global `simulationState` object. `interval` is the handle of the
periodic `setInterval` loop (`none` = no loop scheduled) together with its period
in milliseconds, and `loopBody` records which of the two loop bodies is installed
("start" for the one installed by `startSimulation`, "speed" for the different
body installed by `updateSimulationSpeed`). -/
structure SimState where
  running : Bool
  speed : ℚ
  type : String
  components : List Component
  wires : List Wire
  time : ℚ
  iterationCount : ℕ
  componentValueHistory : List (String × LegacyComponentHistory)
  wireValueHistory : List (String × LegacyWireHistory)
  stabilized : Bool
  stabilityTracker : StabilityTracker
  interval : Option ℚ
  loopBody : String
deriving DecidableEq, Repr

/-- The worker's `processVoltageSource(component, time)`: evaluates the source's
waveform at the present simulated time, rounds the result to 6 decimal places,
keeps the previous current (`component.values?.current || 0`) and stores voltage,
current and power into `component.values`.  The `isValidNumber` fallback branch
of the source is vacuous over `ℚ`. -/
def processVoltageSource (M : MathOracle) (component : Component) (time : ℚ) :
    Component :=
  let amplitude := jsOr (component.parameters.bind (fun p => p.amplitude)) 5
  let frequency := jsOr (component.parameters.bind (fun p => p.frequency)) 1
  let dcOffset := jsOr (component.parameters.bind (fun p => p.dcOffset)) 0
  let waveform := jsOrStr (component.parameters.bind (fun p => p.waveform)) "dc"
  let voltage :=
    if waveform == "dc" then amplitude
    else if waveform == "sine" then
      amplitude * M.sin (2 * M.pi * frequency * time) + dcOffset
    else if waveform == "square" then
      (if 0 ≤ M.sin (2 * M.pi * frequency * time) then amplitude else -amplitude) + dcOffset
    else if waveform == "triangle" then
      amplitude * (2 * |jsMod (time * frequency) 1 - 0.5| - 0.5) * 2 + dcOffset
    else if waveform == "sawtooth" then
      amplitude * (jsMod (time * frequency) 1 - 0.5) * 2 + dcOffset
    else amplitude
  let voltage := roundTo 6 voltage
  { component with
    values := { voltage := voltage, current := component.values.current,
                power := voltage * component.values.current } }

/-!  The transient analysis actually executed by the worker.  The file defines
`performTransientAnalysis` twice; in JavaScript the later function declaration
shadows the earlier one, so the operative transient step is the second
definition (the one introduced by the comment "Modify the
performTransientAnalysis function to use the stabilization").  It is embedded
here under the source name; the first, shadowed pipeline is dead code and only
its standalone helpers (`processVoltageSource`, `applyStabilityFilter`,
`enhancedStabilityFilter`, `applyConservationLaws`, ...) are embedded. -/

/-- The initialisation loop of the executed `performTransientAnalysis`: give each
typed component its direct parameter field when that field is still falsy
(`component.value || default`). -/
def transientDefaults (c : Component) : Component :=
  let c := if c.type == "voltage-source" && jsFalsy c.voltage then
      { c with voltage := some (jsOr c.value 5) } else c
  let c := if c.type == "current-source" && jsFalsy c.current then
      { c with current := some (jsOr c.value 0.01) } else c
  let c := if c.type == "resistor" && jsFalsy c.resistance then
      { c with resistance := some (jsOr c.value 1000) } else c
  let c := if c.type == "capacitor" && jsFalsy c.capacitance then
      { c with capacitance := some (jsOr c.value 1e-6) } else c
  let c := if c.type == "inductor" && jsFalsy c.inductance then
      { c with inductance := some (jsOr c.value 1e-3) } else c
  c

/-- The per-component body of the executed transient analysis: simplified
resistor / capacitor / inductor rules feeding `applyStabilization`, writing only
the direct `component.voltage` / `component.current` fields (never `values`),
then defaulting missing direct fields to `0`. -/
def transientRulesOne (tracker : StabilityTracker) (c : Component) :
    Component × StabilityTracker :=
  let r :=
    if c.type == "resistor" then
      let current := jsOr c.current 0
      let resistance := jsOr c.resistance 1000
      let voltageDrop := current * resistance
      let s := applyStabilization tracker c.id "voltage" voltageDrop
      ({ c with voltage := some s.1 }, s.2)
    else if c.type == "capacitor" then
      let capacitance := jsOr c.capacitance 1e-6
      let current := jsOr c.current 0
      let deltaV := current * 0.01 / capacitance
      let newVoltage := jsOr c.voltage 0 + deltaV
      let s := applyStabilization tracker c.id "voltage" newVoltage
      ({ c with voltage := some s.1 }, s.2)
    else if c.type == "inductor" then
      let inductance := jsOr c.inductance 1e-3
      let voltage := jsOr c.voltage 0
      let deltaI := voltage * 0.01 / inductance
      let newCurrent := jsOr c.current 0 + deltaI
      let s := applyStabilization tracker c.id "current" newCurrent
      ({ c with current := some s.1 }, s.2)
    else (c, tracker)
  let c1 := r.1
  let c1 := if c1.voltage.isNone then { c1 with voltage := some 0 } else c1
  let c1 := if c1.current.isNone then { c1 with current := some 0 } else c1
  (c1, r.2)

/-- In-order fold of `transientRulesOne` over the component list, threading the
stability tracker. -/
def transientRulesFold (tracker : StabilityTracker) :
    List Component → List Component × StabilityTracker
  | [] => ([], tracker)
  | c :: cs =>
    let r := transientRulesOne tracker c
    let rest := transientRulesFold r.2 cs
    (r.1 :: rest.1, rest.2)

/-- The wire loop of the executed transient analysis: when both endpoint
components resolve, copy the start component's direct voltage and current onto
the wire; otherwise leave the wire untouched. -/
def transientWireUpdate (comps : List Component) (w : Wire) : Wire :=
  match findComponent comps w.startComponent, findComponent comps w.endComponent with
  | some startC, some _ =>
    { w with voltage := jsOr startC.voltage 0, current := jsOr startC.current 0 }
  | _, _ => w

/-- The transient analysis the worker actually executes (the second, shadowing
definition of `performTransientAnalysis` in the source). -/
def performTransientAnalysis (st : SimState) : SimState :=
  let comps1 := st.components.map transientDefaults
  let r := transientRulesFold st.stabilityTracker comps1
  { st with components := r.1, wires := st.wires.map (transientWireUpdate r.1),
            stabilityTracker := r.2 }

/-- The per-component body of `performDCAnalysis`, reading the evolving component
array `all` for its connected-component scans (the worker's inner `forEach`
loops keep the last matching component). -/
def dcProcessOne (all : List Component) (c : Component) : Component :=
  if c.type == "voltage-source" then
    let voltage := c.propertiesVoltage
    let totalResistance :=
      all.foldl (fun acc x => if x.type == "resistor" then x.propertiesResistance else acc) 1000
    let current := voltage / totalResistance
    { c with values := { voltage := voltage, current := current, power := voltage * current } }
  else if c.type == "resistor" then
    let sourceVoltage :=
      all.foldl (fun acc x => if x.type == "voltage-source" then x.propertiesVoltage else acc) 5
    let resistance := c.propertiesResistance
    let current := sourceVoltage / resistance
    let voltage := current * resistance
    { c with values := { voltage := voltage, current := current, power := voltage * current } }
  else if c.type == "capacitor" then
    { c with values := { voltage := 0, current := 0, power := 0 } }
  else if c.type == "inductor" then
    let circuitCurrent :=
      all.foldl (fun acc x =>
        if x.type == "resistor" && !(x.values.current == 0) then x.values.current else acc) 0.1
    { c with values := { voltage := 0, current := circuitCurrent, power := 0 } }
  else
    { c with values := { voltage := 0.5, current := 0.01, power := 0.5 * 0.01 } }

/-- The in-place `forEach` of `performDCAnalysis` over the component array:
each component is processed against the array in its current state (already
processed prefix, still unprocessed suffix). -/
def dcLoop : List Component → List Component → List Component
  | acc, [] => acc
  | acc, c :: rest =>
    let c1 := dcProcessOne (acc ++ c :: rest) c
    dcLoop (acc ++ [c1]) rest

/-- JavaScript truthiness of `component && component.values.current` for an
optional looked-up component. -/
def truthyCurrentComp : Option Component → Bool
  | some c => !(c.values.current == 0)
  | none => false

/-- The wire loop of `performDCAnalysis`: copy current and voltage from the
source-side component if it carries a truthy current, else from the target-side
component, else fall back to `0.01` A / `0.1` V. -/
def dcWireUpdate (comps : List Component) (w : Wire) : Wire :=
  let sc := w.source.bind (findComponent comps)
  let tc := w.target.bind (findComponent comps)
  if truthyCurrentComp sc then
    match sc with
    | some c => { w with current := c.values.current, voltage := c.values.voltage }
    | none => w
  else if truthyCurrentComp tc then
    match tc with
    | some c => { w with current := c.values.current, voltage := c.values.voltage }
    | none => w
  else { w with current := 0.01, voltage := 0.1 }

/-- The worker's `performDCAnalysis` (it mutates `simulationState` and returns
`undefined`; the embedding returns the mutated state). -/
def performDCAnalysis (st : SimState) : SimState :=
  let comps := dcLoop [] st.components
  { st with components := comps, wires := st.wires.map (dcWireUpdate comps) }

/-!  Conservation-law corrector.  `applyConservationLaws` receives the voltage
loops from `findVoltageLoops` and the current nodes from `findCurrentNodes`;
both discovery functions depend on `getComponentConnections`, a helper that is
referenced but not defined anywhere in the repository, so the corrector is
embedded over an arbitrary list of discovered loops and nodes (the correction
pass itself, lines 998-1075 of the worker, is fully present in the source). -/

/-- One element of a discovered voltage loop (`{ type: 'component', id, direction }`). -/
structure LoopElement where
  type : String
  id : String
  direction : ℚ
deriving DecidableEq, Repr

/-- One connection of a discovered current node. -/
structure NodeConnection where
  type : String
  id : String
  direction : ℚ
deriving DecidableEq, Repr

/-- A discovered current node with its connections. -/
structure CircuitNode where
  id : String
  connections : List NodeConnection
deriving DecidableEq, Repr

/-- `componentsById[id]?.values?.voltage || 0`. -/
def componentVoltageById (comps : List Component) (i : String) : ℚ :=
  match findComponent comps i with
  | some c => c.values.voltage
  | none => 0

/-- `componentsById[id]?.values?.current || 0`. -/
def componentCurrentById (comps : List Component) (i : String) : ℚ :=
  match findComponent comps i with
  | some c => c.values.current
  | none => 0

/-- `wiresById[id]?.current || 0`. -/
def wireCurrentById (ws : List Wire) (i : String) : ℚ :=
  match ws.find? (fun w => w.id == i) with
  | some w => w.current
  | none => 0

/-- Whether a component type is one of the authoritative source types that the
corrector never adjusts. -/
def isSourceType (t : String) : Bool :=
  t == "voltage-source" || t == "current-source"

/-- The signed voltage sum around one discovered loop. -/
def loopVoltageSum (comps : List Component) (loop : List LoopElement) : ℚ :=
  loop.foldl (fun s e =>
    if e.type == "component" then s + e.direction * componentVoltageById comps e.id else s) 0

/-- One element's correction of the KVL pass: subtract `direction * correction`
from the voltage of the referenced component unless it is a source. -/
def kvlApplyElement (comps : List Component) (e : LoopElement) (correction : ℚ) :
    List Component :=
  if e.type == "component" then
    comps.map (fun c =>
      if c.id == e.id && !isSourceType c.type then
        { c with values := { c.values with voltage := c.values.voltage - e.direction * correction } }
      else c)
  else comps

/-- The KVL correction applied for one discovered loop: when the signed loop sum
exceeds `0.001` in magnitude, distribute `sum / loop.length` over the loop's
non-source components. -/
def kvlLoop (comps : List Component) (loop : List LoopElement) : List Component :=
  let totalVoltage := loopVoltageSum comps loop
  if |totalVoltage| > 0.001 then
    let correction := totalVoltage / (loop.length : ℚ)
    loop.foldl (fun cs e => kvlApplyElement cs e correction) comps
  else comps

/-- The signed current sum at one discovered node. -/
def nodeCurrentSum (comps : List Component) (ws : List Wire) (node : CircuitNode) : ℚ :=
  node.connections.foldl (fun s con =>
    if con.type == "component" then s + con.direction * componentCurrentById comps con.id
    else if con.type == "wire" then s + con.direction * wireCurrentById ws con.id
    else s) 0

/-- One connection's correction of the KCL pass: subtract
`direction * correction` from the current of the referenced component (unless it
is a current source) or wire. -/
def kclApplyConnection (cw : List Component × List Wire) (con : NodeConnection)
    (correction : ℚ) : List Component × List Wire :=
  if con.type == "component" then
    (cw.1.map (fun c =>
      if c.id == con.id && !(c.type == "current-source") then
        { c with values := { c.values with current := c.values.current - con.direction * correction } }
      else c), cw.2)
  else if con.type == "wire" then
    (cw.1, cw.2.map (fun w =>
      if w.id == con.id then { w with current := w.current - con.direction * correction } else w))
  else cw

/-- The KCL correction applied for one discovered node. -/
def kclNode (cw : List Component × List Wire) (node : CircuitNode) :
    List Component × List Wire :=
  let total := nodeCurrentSum cw.1 cw.2 node
  if |total| > 0.001 then
    let correction := total / (node.connections.length : ℚ)
    node.connections.foldl (fun acc con => kclApplyConnection acc con correction) cw
  else cw

/-- The worker's `applyConservationLaws`: the KVL pass over every discovered
voltage loop, then the KCL pass over every discovered current node. -/
def applyConservationLaws (comps : List Component) (ws : List Wire)
    (loops : List (List LoopElement)) (nodes : List CircuitNode) :
    List Component × List Wire :=
  let comps1 := loops.foldl kvlLoop comps
  nodes.foldl kclNode (comps1, ws)

/-- Sum of the directions of the occurrences of a component id among the
component-typed elements of a loop (a loop discovered by `findVoltageLoops` can
list its origin twice, so a component's total correction is the direction sum of
its occurrences). -/
def dirSum : List LoopElement → String → ℚ
  | [], _ => 0
  | e :: es, i =>
    (if e.type == "component" && e.id == i then e.direction else 0) + dirSum es i

/-- The worker's `calculateCircuitImpedance`: series-circuit heuristic,
`sqrt(R_total^2 + (Xl_total - Xc_total)^2)` with reactances read from the
components' `value` payloads.  For `frequency ≤ 0` the capacitive reactance is
`Infinity` in JS; modelled as `0` (unreachable through the worker's callers,
which default a falsy frequency to a positive one). -/
def calculateCircuitImpedance (M : MathOracle) (resistors capacitors inductors : List Component)
    (frequency : ℚ) : ℚ :=
  let totalResistance := resistors.foldl (fun s r => s + jsOr r.value 1000) 1000
  let totalCapacitiveReactance := capacitors.foldl (fun s c =>
    let capacitance := (jsOr c.value 10) * 1e-6
    let reactance := if frequency > 0 then 1 / (2 * M.pi * frequency * capacitance) else 0
    s + reactance) 0
  let totalInductiveReactance := inductors.foldl (fun s l =>
    let inductance := (jsOr l.value 1) * 1e-3
    s + 2 * M.pi * frequency * inductance) 0
  M.sqrt (totalResistance * totalResistance +
    (totalInductiveReactance - totalCapacitiveReactance) ^ 2)

/-- The voltage-source loop body of `performACAnalysis`: waveform generation from
the source's `value` / `properties` payloads and current from the series
impedance of the whole circuit. -/
def acProcessVoltageSource (M : MathOracle)
    (resistors capacitors inductors : List Component) (time : ℚ) (vs : Component) :
    Component :=
  let amplitude := roundTo 6 (jsOr vs.value (jsOr (some vs.propertiesVoltage) 5))
  let frequency := roundTo 2 (jsOr (some vs.propertiesFrequency) 1000)
  let waveformType := jsOrStr vs.propertiesWaveform "sine"
  let voltage :=
    if waveformType == "sine" then amplitude * M.sin (2 * M.pi * frequency * time)
    else if waveformType == "square" then amplitude * jsSign (M.sin (2 * M.pi * frequency * time))
    else if waveformType == "triangle" then amplitude * (2 * |jsMod (2 * frequency * time) 2 - 1| - 1)
    else if waveformType == "sawtooth" then amplitude * (2 * jsMod (frequency * time) 1 - 1)
    else amplitude * M.sin (2 * M.pi * frequency * time)
  let v := roundTo 6 voltage
  let totalImpedance := calculateCircuitImpedance M resistors capacitors inductors frequency
  let current := roundTo 9 (v / totalImpedance)
  { vs with values := { voltage := v, current := current, power := roundTo 6 (v * current) } }

/-- The resistor branch of the AC `processComponents` (reads the current of the
first voltage source, already processed). -/
def acUpdateResistor (vs0current : ℚ) (r : Component) : Component :=
  let resistance := roundTo 6 (jsOr r.value 1000)
  let current := roundTo 9 vs0current
  let voltage := roundTo 6 (current * resistance)
  { r with values := { voltage := voltage, current := current, power := roundTo 6 (voltage * current) } }

/-- The capacitor branch of the AC `processComponents`. -/
def acUpdateCapacitor (M : MathOracle) (frequency amplitude time : ℚ) (c : Component) :
    Component :=
  let capacitanceF := roundTo 12 ((jsOr c.value 10) * 1e-6)
  let reactance := if frequency > 0 then 1 / (2 * M.pi * frequency * capacitanceF) else 0
  let current := roundTo 9 (amplitude / reactance)
  let voltage := roundTo 6 (amplitude * M.sin (2 * M.pi * frequency * time + (-(M.pi) / 2)))
  { c with values := { voltage := voltage, current := current, power := roundTo 6 (voltage * current) } }

/-- The inductor branch of the AC `processComponents`. -/
def acUpdateInductor (M : MathOracle) (frequency amplitude time : ℚ) (c : Component) :
    Component :=
  let inductanceH := roundTo 9 ((jsOr c.value 1) * 1e-3)
  let reactance := 2 * M.pi * frequency * inductanceH
  let current := roundTo 9 (amplitude / reactance)
  let voltage := roundTo 6 (amplitude * M.sin (2 * M.pi * frequency * time + M.pi / 2))
  { c with values := { voltage := voltage, current := current, power := roundTo 6 (voltage * current) } }

/-- The wire loop of `performACAnalysis` (`updateACWireValues`): copy rounded
current and voltage from the source-side component if it resolves, else from the
target-side component. -/
def acWireUpdate (comps : List Component) (w : Wire) : Wire :=
  match w.source.bind (findComponent comps) with
  | some c => { w with current := roundTo 9 c.values.current, voltage := roundTo 6 c.values.voltage }
  | none =>
    match w.target.bind (findComponent comps) with
    | some c => { w with current := roundTo 9 c.values.current, voltage := roundTo 6 c.values.voltage }
    | none => w

/-- When the circuit has resistors but no voltage source, the AC analysis'
`processComponents` dereferences the null first source and throws before any
state mutation; this guard detects that case. -/
def acThrows (st : SimState) : Bool :=
  (st.components.filter (fun c => c.type == "voltage-source")).isEmpty
    && !(st.components.filter (fun c => c.type == "resistor")).isEmpty

/-- The non-throwing computation of `performACAnalysis` (see `performACAnalysis`
for the guard): waveform generation for every voltage source, reactance-based
updates for the passive components from the first source's processed values, and
the wire update.  The frequency-response sweep the function additionally posts is
pure side-channel data and does not touch the simulation state. -/
def acApplyAnalysis (M : MathOracle) (st : SimState) : SimState :=
  let resistors := st.components.filter (fun c => c.type == "resistor")
  let capacitors := st.components.filter (fun c => c.type == "capacitor")
  let inductors := st.components.filter (fun c => c.type == "inductor")
  let comps1 := st.components.map (fun c =>
    if c.type == "voltage-source" then
      acProcessVoltageSource M resistors capacitors inductors st.time c
    else c)
  let vs0 := comps1.find? (fun c => c.type == "voltage-source")
  let frequency :=
    match vs0 with
    | some v => roundTo 2 (jsOr (some v.propertiesFrequency) 1000)
    | none => 1000
  let amplitude :=
    match vs0 with
    | some v => roundTo 6 (jsOr v.value (jsOr (some v.propertiesVoltage) 5))
    | none => 5
  let vs0current :=
    match vs0 with
    | some v => v.values.current
    | none => 0
  let comps2 := comps1.map (fun c =>
    if c.type == "resistor" then acUpdateResistor vs0current c
    else if c.type == "capacitor" then acUpdateCapacitor M frequency amplitude st.time c
    else if c.type == "inductor" then acUpdateInductor M frequency amplitude st.time c
    else c)
  { st with components := comps2, wires := st.wires.map (acWireUpdate comps2) }

/-- The worker's `performACAnalysis` as a state transformation: `none` models the
thrown exception of the missing-source case (see `acThrows`). -/
def performACAnalysis (M : MathOracle) (st : SimState) : Option SimState :=
  if acThrows st then none else some (acApplyAnalysis M st)

/-- The worker's `SimulationValidator.validateComponent` as a state change: every
numeric check holds over `ℚ` (no NaN / Infinity), so every branch leaves the
component untouched; the structure of the checks is mirrored. -/
def validateComponent (c : Component) : Component :=
  let c :=
    if c.type == "resistor" then
      match c.resistance with
      | some r => if !isValidNumber r then { c with resistance := some 1000 } else c
      | none => c
    else if c.type == "capacitor" then
      match c.capacitance with
      | some r => if !isValidNumber r then { c with capacitance := some 1e-6 } else c
      | none => c
    else if c.type == "inductor" then
      match c.inductance with
      | some r => if !isValidNumber r then { c with inductance := some 1e-3 } else c
      | none => c
    else if c.type == "voltage-source" then
      match c.voltage with
      | some r => if !isValidNumber r then { c with voltage := some 5 } else c
      | none => c
    else if c.type == "current-source" then
      match c.current with
      | some r => if !isValidNumber r then { c with current := some 0.01 } else c
      | none => c
    else c
  let c :=
    match c.voltage with
    | some v => if !isValidNumber v then { c with voltage := some 0 } else c
    | none => c
  match c.current with
  | some v => if !isValidNumber v then { c with current := some 0 } else c
  | none => c

/-- The worker's `SimulationValidator.validateWire` as a state change (numeric
repairs only; both are vacuous over `ℚ`). -/
def validateWire (w : Wire) : Wire :=
  let w := if !isValidNumber w.voltage then { w with voltage := 0 } else w
  if !isValidNumber w.current then { w with current := 0 } else w

/-- `initializeValueHistory` for components: per id, fixed windows of
`VALUES_HISTORY_SIZE = 5` copies of the present values. -/
def initComponentValueHistory (comps : List Component) :
    List (String × LegacyComponentHistory) :=
  comps.map (fun c =>
    (c.id, { voltage := List.replicate 5 c.values.voltage,
             current := List.replicate 5 c.values.current }))

/-- `initializeValueHistory` for wires. -/
def initWireValueHistory (wires : List Wire) : List (String × LegacyWireHistory) :=
  wires.map (fun w => (w.id, ({ current := List.replicate 5 w.current } : LegacyWireHistory)))

/-- The worker's `recoverFromError`: the component / wire resets are guarded by
validator failures that cannot occur in the model, so the state effect is the
stability reset plus the history reinitialisation. -/
def recoverFromError (st : SimState) : SimState :=
  { st with stabilized := false, iterationCount := 0,
            componentValueHistory := initComponentValueHistory st.components,
            wireValueHistory := initWireValueHistory st.wires }

/-- The worker's `performSimulationStep`: bail out when not running, bump the
iteration counter, validate components and wires, dispatch on the analysis type
(unknown types fall back to transient).  Only the transient branch returns a
results object, so only it re-validates afterwards; the DC and AC analyses
return `undefined` and skip the re-validation and the update message.  An AC
exception is caught and answered with `recoverFromError`.  The function never
touches `simulationState.time`. -/
def performSimulationStep (M : MathOracle) (st : SimState) : SimState :=
  if !st.running then st
  else
    let st := { st with iterationCount := st.iterationCount + 1 }
    let st := { st with components := st.components.map validateComponent,
                        wires := st.wires.map validateWire }
    if st.type == "tran" then
      let st2 := performTransientAnalysis st
      { st2 with components := st2.components.map validateComponent,
                 wires := st2.wires.map validateWire }
    else if st.type == "dc" then performDCAnalysis st
    else if st.type == "ac" then
      match performACAnalysis M st with
      | some st2 => st2
      | none => recoverFromError st
    else
      let st2 := performTransientAnalysis st
      { st2 with components := st2.components.map validateComponent,
                 wires := st2.wires.map validateWire }

/-- The body of the periodic loop installed by `startSimulation`
(`if (simulationState.running) performSimulationStep();`). -/
def startLoopTick (M : MathOracle) (st : SimState) : SimState :=
  if st.running then performSimulationStep M st else st

/-- The different loop body installed by `updateSimulationSpeed`: dispatch the
analysis, then advance `time` by `0.01 * speed` and post an update.  An AC
exception aborts the tick before the time increment. -/
def speedLoopTick (M : MathOracle) (st : SimState) : SimState :=
  if !st.running then st
  else
    let r : Option SimState :=
      if st.type == "tran" then some (performTransientAnalysis st)
      else if st.type == "dc" then some (performDCAnalysis st)
      else if st.type == "ac" then performACAnalysis M st
      else some (performTransientAnalysis st)
    match r with
    | some st1 => { st1 with time := st1.time + 0.01 * st1.speed }
    | none => st

/-- The payload of the `start-simulation` message. -/
structure StartData where
  components : Option (List Component)
  wires : Option (List Wire)
  simulationType : Option String
  simulationSpeed : Option ℚ

/-- The worker's `startSimulation`: install the circuit, reset time and history,
tune the stability tracker per analysis type, and install the periodic loop with
period `max(10, 50 / speed)` milliseconds. -/
def startSimulation (d : StartData) (st : SimState) : SimState :=
  let st := { st with components := d.components.getD [], wires := d.wires.getD [],
                      type := jsOrStr d.simulationType "tran",
                      speed := jsOr d.simulationSpeed 1,
                      time := 0, running := true, iterationCount := 0,
                      componentValueHistory := [], wireValueHistory := [],
                      stabilized := false }
  let st := { st with componentValueHistory := initComponentValueHistory st.components,
                      wireValueHistory := initWireValueHistory st.wires }
  let st :=
    if st.type == "ac" then
      { st with stabilityTracker :=
          { st.stabilityTracker with maxSamples := 10, smoothingFactor := 0.8 } }
    else if st.type == "dc" then
      { st with stabilityTracker :=
          { st.stabilityTracker with maxSamples := 3, smoothingFactor := 0.5 } }
    else st
  { st with interval := some (max 10 (50 / st.speed)), loopBody := "start" }

/-- The worker's `resetSimulationValues`: zero every component's `values` and
every wire's `current` and `voltage`. -/
def resetSimulationValues (st : SimState) : SimState :=
  { st with
    components := st.components.map (fun c =>
      { c with values := { voltage := 0, current := 0, power := 0 } }),
    wires := st.wires.map (fun w => { w with current := 0, voltage := 0 }) }

/-- The worker's `stopSimulation`: clear the running flag, cancel the periodic
loop if one is installed, and reset all values. -/
def stopSimulation (st : SimState) : SimState :=
  let st := { st with running := false }
  let st := if st.interval.isSome then { st with interval := none } else st
  resetSimulationValues st

/-- The worker's `updateSimulationSpeed`: non-positive speeds are rejected with
no effect; otherwise store the speed and, when a loop is running, reinstall it
with the new period and the speed-loop body. -/
def updateSimulationSpeed (speed : ℚ) (st : SimState) : SimState :=
  if speed ≤ 0 then st
  else
    let st := { st with speed := speed }
    if st.running && st.interval.isSome then
      { st with interval := some (max 10 (50 / speed)), loopBody := "speed" }
    else st

/-!  Concrete fixtures used by the witnesses and counterexamples below. -/

/-- Oracle fixture used by the C3 witness (the sine value at the sampled point is
irrelevant to how the rule assembles the output, so a constant oracle serves). -/
def oracleW : MathOracle := { sin := fun _ => 0, sqrt := fun _ => 0, pi := 3 }

/-- Parameter fixture for the C3 witness: a sine source with amplitude 3,
frequency 2, dc offset 1. -/
def paramsW : SourceParameters :=
  { amplitude := some 3, frequency := some 2, dcOffset := some 1, waveform := some "sine" }

/-- Component fixture for the C3 witness, with a prior current of 7 A. -/
def sourceW : Component :=
  { defaultComponent with
    id := "vs1",
    type := "voltage-source",
    values := { voltage := 0, current := 7, power := 0 },
    parameters := some paramsW }

/-- Oracle fixture for the C3 counterexample: the identity sine makes the
frequency that actually reaches `Math.sin` observable in the output. -/
def oracleN : MathOracle := { sin := fun x => x, sqrt := fun _ => 0, pi := 3 }

/-- Parameters of the C3 counterexample's first source: a dc source whose
amplitude is explicitly 0 (falsy in JavaScript). -/
def paramsN : SourceParameters :=
  { amplitude := some 0, frequency := some 2, dcOffset := some 0, waveform := some "dc" }

/-- The zero-amplitude dc source of the C3 counterexample. -/
def sourceN : Component :=
  { defaultComponent with
    id := "vs0",
    type := "voltage-source",
    parameters := some paramsN }

/-- Parameters of the C3 counterexample's second source: a sine source whose
frequency is explicitly 0 (falsy in JavaScript). -/
def paramsF : SourceParameters :=
  { amplitude := some 2, frequency := some 0, dcOffset := some 1, waveform := some "sine" }

/-- The zero-frequency sine source of the C3 counterexample. -/
def sourceF : Component :=
  { defaultComponent with
    id := "vs2",
    type := "voltage-source",
    parameters := some paramsF }

/-- History fixture for the C4 boundary counterexample: exponential average 1,
fluctuation counter 1, so one more fluctuation brings the counter to exactly 2. -/
def historyX : QuantityHistory :=
  { values := [], movingAvg := 0, exponentialAvg := 1, variance := 0,
    fluctuationCount := 1, steadyCount := 0, lastUpdate := 0 }

/-- Source fixture for the C6 witness. -/
def sourceX : Component :=
  { defaultComponent with
    id := "cs1",
    type := "current-source",
    values := { voltage := 2, current := 3, power := 6 } }

/-- Parameters of the dc source of the C1 counterexample. -/
def paramsY : SourceParameters :=
  { amplitude := some 5, frequency := some 1, dcOffset := some 1, waveform := some "dc" }

/-- The dc voltage source of the C1 counterexample, with zeroed values. -/
def sourceY : Component :=
  { defaultComponent with
    id := "v1",
    type := "voltage-source",
    parameters := some paramsY }

/-- Base tracker fixture. -/
def trackerY : StabilityTracker :=
  { samplesCollected := 0, maxSamples := 5, prevValues := [],
    smoothingFactor := 0.7, varianceThreshold := 0.1 }

/-- A running transient simulation whose only component is `sourceY`. -/
def stateY : SimState :=
  { running := true, speed := 1, type := "tran", components := [sourceY], wires := [],
    time := 0, iterationCount := 0, componentValueHistory := [], wireValueHistory := [],
    stabilized := false, stabilityTracker := trackerY, interval := some 50,
    loopBody := "start" }

/-- Constant oracle for the C1 counterexample (the dc waveform branch does not
consult the oracle). -/
def oracleY : MathOracle := { sin := fun _ => 0, sqrt := fun _ => 0, pi := 3 }

/-- Capacitor fixture for the C7 witness. -/
def capacitorZ : Component :=
  { defaultComponent with
    id := "c1",
    type := "capacitor",
    values := { voltage := 3, current := 2, power := 6 } }

/-- A running DC simulation whose only component is `capacitorZ`. -/
def stateZ : SimState :=
  { stateY with type := "dc", components := [capacitorZ] }

/-- Ground fixture for the C8 counterexample and witness. -/
def groundZ : Component :=
  { defaultComponent with id := "g1", type := "ground" }

/-- A running DC simulation whose only component is `groundZ` (its
`values.voltage` starts at the claimed 0). -/
def stateG : SimState :=
  { stateY with type := "dc", components := [groundZ] }

/-- Wire fixture for the C9 witness. -/
def wireZ : Wire :=
  { id := "w1", startComponent := "c1", endComponent := "g1",
    source := some "c1", target := some "g1", current := 4, voltage := 9 }

/-- A paused simulation with nonzero values for the C9 witness. -/
def stateS : SimState :=
  { stateY with running := false, components := [capacitorZ], wires := [wireZ] }

/-- Components of the C5 witness: a 3 V resistor and a 5 V source. -/
def resistorK : Component :=
  { defaultComponent with
    id := "r1",
    type := "resistor",
    values := { voltage := 3, current := 0, power := 0 } }

/-- The voltage source of the C5 witness. -/
def sourceK : Component :=
  { defaultComponent with
    id := "v1",
    type := "voltage-source",
    values := { voltage := 5, current := 0, power := 0 } }

/-- The discovered loop of the C5 witness: both components traversed with
direction 1, so the loop sum is 8 V and the correction 4 V. -/
def loopK : List LoopElement :=
  [{ type := "component", id := "r1", direction := 1 },
   { type := "component", id := "v1", direction := 1 }]

/-!  Theorems. -/

/-- Claim C3, counterexample: the claim's per-waveform formulas fail on falsy
parameters, because the rule reads them JavaScript-style with defaults
(`component.parameters?.amplitude || 5`, `frequency || 1`).  A dc source whose
amplitude is 0 outputs 5 V (the claim's "dc: amplitude" says 0), and a sine
source whose frequency is 0 is evaluated at the default 1 Hz: with the identity
sine oracle the output at t = 1 is 13, while the claim's formula
`A * sin(2 pi f t) + offset` with the component's own frequency 0 yields 1. -/
theorem processVoltageSource_default_counterexample :
    (processVoltageSource oracleN sourceN 0).values.voltage = 5
    ∧ ((5 : ℚ) ≠ 0)
    ∧ (processVoltageSource oracleN sourceF 1).values.voltage = 13
    ∧ roundTo 6 (2 * oracleN.sin (2 * oracleN.pi * 0 * 1) + 1) = 1
    ∧ ((13 : ℚ) ≠ 1) := by
  refine ⟨?_, by norm_num, ?_, ?_, by norm_num⟩ <;>
    norm_num +decide [processVoltageSource, sourceN, paramsN, sourceF, paramsF, oracleN,
      defaultComponent, jsOr, jsOrStr, roundTo, round_eq]

/-- Claim C3 (amended): the voltage-source update rule first defaults its
parameters JavaScript-style — amplitude `|| 5`, frequency `|| 1`, dcOffset
`|| 0`, waveform `|| 'dc'`, so a missing or zero amplitude becomes 5 and a
missing or zero frequency becomes 1 Hz — and then, for every voltage-source
component and every simulated time, computes `values.voltage` from the effective
waveform kind (dc: the effective amplitude; sine: effective amplitude times
sin(2 pi times effective frequency times t) plus effective offset; square: plus
or minus the effective amplitude by the sign of that sine, plus the effective
offset), rounded to 6 decimal places, carrying `values.current` over unchanged
from the prior value. -/
theorem processVoltageSource_waveform_defaulted (M : MathOracle) (c : Component) (t : ℚ) :
    (jsOrStr (c.parameters.bind (fun p => p.waveform)) "dc" = "dc" →
      (processVoltageSource M c t).values.voltage =
        roundTo 6 (jsOr (c.parameters.bind (fun p => p.amplitude)) 5))
    ∧ (jsOrStr (c.parameters.bind (fun p => p.waveform)) "dc" = "sine" →
      (processVoltageSource M c t).values.voltage =
        roundTo 6 (jsOr (c.parameters.bind (fun p => p.amplitude)) 5 *
            M.sin (2 * M.pi * jsOr (c.parameters.bind (fun p => p.frequency)) 1 * t)
          + jsOr (c.parameters.bind (fun p => p.dcOffset)) 0))
    ∧ (jsOrStr (c.parameters.bind (fun p => p.waveform)) "dc" = "square" →
      (processVoltageSource M c t).values.voltage =
        roundTo 6
          ((if 0 ≤ M.sin (2 * M.pi * jsOr (c.parameters.bind (fun p => p.frequency)) 1 * t)
            then jsOr (c.parameters.bind (fun p => p.amplitude)) 5
            else -(jsOr (c.parameters.bind (fun p => p.amplitude)) 5))
          + jsOr (c.parameters.bind (fun p => p.dcOffset)) 0))
    ∧ (processVoltageSource M c t).values.current = c.values.current := by
  refine ⟨?_, ?_, ?_, by simp [processVoltageSource]⟩ <;>
    · intro hw
      simp [processVoltageSource, hw]

theorem processVoltageSource_waveform_defaulted_witness :
    (jsOrStr (sourceW.parameters.bind (fun p => p.waveform)) "dc" = "sine")
    ∧ (processVoltageSource oracleW sourceW 0).values.voltage =
        roundTo 6 (jsOr (sourceW.parameters.bind (fun p => p.amplitude)) 5 *
            oracleW.sin (2 * oracleW.pi *
              jsOr (sourceW.parameters.bind (fun p => p.frequency)) 1 * 0)
          + jsOr (sourceW.parameters.bind (fun p => p.dcOffset)) 0)
    ∧ (processVoltageSource oracleW sourceW 0).values.current = sourceW.values.current :=
  ⟨rfl,
   (processVoltageSource_waveform_defaulted oracleW sourceW 0).2.1 rfl,
   (processVoltageSource_waveform_defaulted oracleW sourceW 0).2.2.2⟩

lemma abs_clamp1000 (x : ℚ) : |clamp1000 x| ≤ 1000 := by
  rw [abs_le]
  constructor
  · exact le_max_left _ _
  · exact max_le (by norm_num) (min_le_left _ _)

/-- Claim C4 (amended): for every finite raw input the enhanced stability filter
selects its output by the updated fluctuation counter; a counter strictly
greater than 5 yields the clamped median of the bounded history, a counter
strictly greater than 2 and at most 5 yields the clamped exponential moving
average, a counter of at most 2 yields the clamped 70/30 blend of the raw value
and the exponential average; the returned value always has magnitude at most
1000, and a non-finite input yields 0. -/
theorem enhancedStabilityFilter_selection (v : ℚ) (h : QuantityHistory) (t : ℚ) :
    |(enhancedStabilityFilter (some v) h t).1| ≤ 1000
    ∧ ((enhancedStabilityFilter (some v) h t).2.fluctuationCount > 5 →
        (enhancedStabilityFilter (some v) h t).1 =
          clamp1000 (medianOf (enhancedStabilityFilter (some v) h t).2.values))
    ∧ (2 < (enhancedStabilityFilter (some v) h t).2.fluctuationCount →
        (enhancedStabilityFilter (some v) h t).2.fluctuationCount ≤ 5 →
        (enhancedStabilityFilter (some v) h t).1 =
          clamp1000 (enhancedStabilityFilter (some v) h t).2.exponentialAvg)
    ∧ ((enhancedStabilityFilter (some v) h t).2.fluctuationCount ≤ 2 →
        (enhancedStabilityFilter (some v) h t).1 =
          clamp1000 (0.7 * v + 0.3 * (enhancedStabilityFilter (some v) h t).2.exponentialAvg))
    ∧ (enhancedStabilityFilter none h t).1 = 0 := by
  simp only [enhancedStabilityFilter]
  refine ⟨?_, ?_, ?_, ?_, trivial⟩ <;> unfold filterOutput <;> intros <;>
    first
      | exact abs_clamp1000 _
      | (split_ifs <;> first | rfl | linarith)

/-- Claim C4, counterexample at the lower boundary of "between 2 and 5": feeding
the raw value 2 into `historyX` raises the fluctuation counter to exactly 2, yet
the filter returns the 70/30 blend 1.79, not the exponential moving average 1.3
(the source selects the exponential average only for a counter strictly greater
than 2). -/
theorem enhancedStabilityFilter_boundary_two :
    (enhancedStabilityFilter (some 2) historyX 1).2.fluctuationCount = 2
    ∧ (enhancedStabilityFilter (some 2) historyX 1).1 = 1.79
    ∧ clamp1000 (enhancedStabilityFilter (some 2) historyX 1).2.exponentialAvg = 1.3
    ∧ (1.79 : ℚ) ≠ 1.3 := by
  norm_num [enhancedStabilityFilter, filterUpdateHistory, filterOutput, historyX,
    medianOf, sortQ, sortedInsert, listSumQ, clamp1000]

theorem enhancedStabilityFilter_selection_witness :
    (enhancedStabilityFilter (some 2) historyX 1).2.fluctuationCount ≤ 2
    ∧ (enhancedStabilityFilter (some 2) historyX 1).1 =
        clamp1000 (0.7 * 2 + 0.3 * (enhancedStabilityFilter (some 2) historyX 1).2.exponentialAvg) :=
  ⟨by norm_num [enhancedStabilityFilter, filterUpdateHistory, historyX],
   (enhancedStabilityFilter_selection 2 historyX 1).2.2.2.1
     (by norm_num [enhancedStabilityFilter, filterUpdateHistory, historyX])⟩

/-- Claim C6: applying the stability filter to a voltage-source or
current-source component any number of times leaves both the component (its
values included) and the filter histories exactly unchanged: a source's filtered
output equals its raw computed output for every step count. -/
theorem applyStabilityFilter_source_exempt
    (histories : List (String × ComponentHistory)) (c : Component) (t : ℚ) (n : ℕ)
    (h : c.type = "voltage-source" ∨ c.type = "current-source") :
    applyStabilityFilterIter histories c t n = (histories, c) := by
  induction n with
  | zero => rfl
  | succ n ih =>
    have hguard : (c.type == "voltage-source" || c.type == "current-source") = true := by
      rcases h with h | h <;> simp [h]
    simp [applyStabilityFilterIter, ih, applyStabilityFilter, hguard]

theorem applyStabilityFilter_source_exempt_witness :
    (sourceX.type = "voltage-source" ∨ sourceX.type = "current-source")
    ∧ applyStabilityFilterIter [] sourceX 0 3 = ([], sourceX) :=
  ⟨Or.inr rfl, applyStabilityFilter_source_exempt [] sourceX 0 3 (Or.inr rfl)⟩

lemma transientDefaults_values_type (c : Component) :
    (transientDefaults c).values = c.values ∧ (transientDefaults c).type = c.type := by
  unfold transientDefaults
  dsimp only
  repeat' split
  all_goals simp

lemma transientRulesOne_values_type (tr : StabilityTracker) (c : Component) :
    ((transientRulesOne tr c).1).values = c.values
    ∧ ((transientRulesOne tr c).1).type = c.type := by
  unfold transientRulesOne
  dsimp only
  repeat' split
  all_goals simp

lemma transientRulesFold_values_type (l : List Component) :
    ∀ tr : StabilityTracker,
      ((transientRulesFold tr l).1.map (fun c => c.values) = l.map (fun c => c.values))
      ∧ ((transientRulesFold tr l).1.map (fun c => c.type) = l.map (fun c => c.type)) := by
  induction l with
  | nil => intro tr; simp [transientRulesFold]
  | cons c cs ih =>
    intro tr
    have h1 := transientRulesOne_values_type tr c
    have h2 := ih (transientRulesOne tr c).2
    simp [transientRulesFold, h1.1, h1.2, h2.1, h2.2]

/-- The executed transient analysis carries every component's `values` record
through unchanged (it writes only the direct `component.voltage` /
`component.current` fields) and preserves every component's type. -/
lemma performTransientAnalysis_map_values (st : SimState) :
    ((performTransientAnalysis st).components.map (fun c => c.values)
      = st.components.map (fun c => c.values))
    ∧ ((performTransientAnalysis st).components.map (fun c => c.type)
      = st.components.map (fun c => c.type)) := by
  unfold performTransientAnalysis
  have h := transientRulesFold_values_type (st.components.map transientDefaults)
    st.stabilityTracker
  constructor
  · rw [h.1, List.map_map]
    exact List.map_congr_left (fun c _ => (transientDefaults_values_type c).1)
  · rw [h.2, List.map_map]
    exact List.map_congr_left (fun c _ => (transientDefaults_values_type c).2)

/-- Claim C1 (amended): in transient mode the executed step is the later,
shadowing definition of `performTransientAnalysis`; it applies only the
simplified resistor / capacitor / inductor rules through `applyStabilization` to
the components' direct voltage / current fields and copies the start component's
direct fields onto fully bound wires, so every component's `values` snapshot
(and type) is carried through the step unchanged — the section 4.1 update rules,
wire-current propagation, conservation-law corrector and stability filter bank
of the earlier definition are never invoked. -/
theorem transient_step_carries_values (st : SimState) :
    ((performTransientAnalysis st).components.map (fun c => c.values)
      = st.components.map (fun c => c.values))
    ∧ ((performTransientAnalysis st).components.map (fun c => c.type)
      = st.components.map (fun c => c.type)) :=
  performTransientAnalysis_map_values st

/-- Claim C1, counterexample: were the transient step to run the per-type update
rules first (with wire propagation, corrector and filters after them — phases
which by the specification never modify a voltage-source's voltage), the dc
source's snapshot voltage after the step would be the rule output 5; the
executed step instead leaves the source's `values.voltage` at 0, because the
shadowing definition of `performTransientAnalysis` never invokes
`processVoltageSource` (or any of the later phases) and only initialises the
direct `component.voltage` field. -/
theorem transient_pipeline_counterexample :
    ((performTransientAnalysis stateY).components.map (fun c => c.values.voltage)) = [0]
    ∧ ((performTransientAnalysis stateY).components.map (fun c => c.voltage)) = [some 5]
    ∧ (processVoltageSource oracleY sourceY stateY.time).values.voltage = 5
    ∧ ((0 : ℚ) ≠ 5) := by
  refine ⟨?_, ?_, ?_, by norm_num⟩ <;>
    norm_num +decide [performTransientAnalysis, transientRulesFold, transientRulesOne,
      transientDefaults, stateY, sourceY, paramsY, trackerY, oracleY, defaultComponent,
      jsFalsy, jsOr, jsOrStr, processVoltageSource, roundTo, round_eq]

lemma performTransientAnalysis_time (st : SimState) :
    (performTransientAnalysis st).time = st.time := rfl

lemma performDCAnalysis_time (st : SimState) :
    (performDCAnalysis st).time = st.time := rfl

lemma acApplyAnalysis_time (M : MathOracle) (st : SimState) :
    (acApplyAnalysis M st).time = st.time := rfl

lemma performACAnalysis_time (M : MathOracle) (st st' : SimState)
    (h : performACAnalysis M st = some st') : st'.time = st.time := by
  unfold performACAnalysis at h
  by_cases hb : acThrows st = true
  · simp [hb] at h
  · simp [hb] at h
    rw [← h]
    rfl

lemma recoverFromError_time (st : SimState) : (recoverFromError st).time = st.time := rfl

lemma performSimulationStep_time (M : MathOracle) (st : SimState) :
    (performSimulationStep M st).time = st.time := by
  unfold performSimulationStep
  dsimp only
  split
  · rfl
  · split
    · rfl
    · split
      · rfl
      · split
        · split
          · rename_i st2 hst2
            have h2 := performACAnalysis_time M _ st2 hst2
            exact h2
          · rfl
        · rfl

lemma startLoopTick_time (M : MathOracle) (st : SimState) :
    (startLoopTick M st).time = st.time := by
  unfold startLoopTick
  split
  · exact performSimulationStep_time M st
  · rfl

lemma startSimulation_time (d : StartData) (st : SimState) :
    (startSimulation d st).time = 0 := by
  unfold startSimulation
  dsimp only
  repeat' split
  all_goals rfl

/-- Claim C2: the periodic loop installed by `startSimulation` calls
`performSimulationStep`, which never writes `simulationState.time`; hence after
any number of ticks of that loop the simulated time is still the 0 that
`startSimulation` set, instead of advancing by `0.01 * speed` per step.  (Only
the different loop body installed by `updateSimulationSpeed` advances time.) -/
theorem start_loop_time_frozen (M : MathOracle) (d : StartData) (st : SimState) (n : ℕ) :
    ((startLoopTick M)^[n] (startSimulation d st)).time = 0
    ∧ (performSimulationStep M st).time = st.time := by
  constructor
  · induction n with
    | zero => exact startSimulation_time d st
    | succ n ih =>
      rw [Function.iterate_succ_apply', startLoopTick_time]
      exact ih
  · exact performSimulationStep_time M st

/-- Any property established by `dcProcessOne` for every input holds for every
component of the DC pass result. -/
lemma dcLoop_pred (P : Component → Prop)
    (hP : ∀ all c, P (dcProcessOne all c)) :
    ∀ (pending acc : List Component), (∀ c ∈ acc, P c) →
      ∀ c ∈ dcLoop acc pending, P c := by
  intro pending
  induction pending with
  | nil =>
    intro acc hacc c hc
    rw [dcLoop] at hc
    exact hacc c hc
  | cons p ps ih =>
    intro acc hacc c hc
    rw [dcLoop] at hc
    refine ih (acc ++ [dcProcessOne (acc ++ p :: ps) p]) ?_ c hc
    intro x hx
    rcases List.mem_append.mp hx with hx | hx
    · exact hacc x hx
    · rw [List.mem_singleton] at hx
      subst hx
      exact hP _ _

lemma dcProcessOne_capacitor_inductor (all : List Component) (c : Component) :
    ((dcProcessOne all c).type = "capacitor" →
      (dcProcessOne all c).values = { voltage := 0, current := 0, power := 0 })
    ∧ ((dcProcessOne all c).type = "inductor" →
      (dcProcessOne all c).values.voltage = 0) := by
  unfold dcProcessOne
  split_ifs with h1 h2 h3 h4 <;> simp_all

/-- Claim C7: in DC analysis mode, every step sets every capacitor's values to
zero voltage, current and power (open circuit) and every inductor's voltage to
zero (short circuit), for every circuit. -/
theorem dc_capacitor_open_inductor_short (st : SimState) (c : Component)
    (hc : c ∈ (performDCAnalysis st).components) :
    (c.type = "capacitor" → c.values = { voltage := 0, current := 0, power := 0 })
    ∧ (c.type = "inductor" → c.values.voltage = 0) := by
  have hmem : c ∈ dcLoop [] st.components := by
    simpa [performDCAnalysis] using hc
  exact dcLoop_pred
    (fun x => (x.type = "capacitor" → x.values = { voltage := 0, current := 0, power := 0 })
      ∧ (x.type = "inductor" → x.values.voltage = 0))
    dcProcessOne_capacitor_inductor st.components [] (by simp) c hmem

theorem dc_capacitor_open_inductor_short_witness :
    ((dcProcessOne [capacitorZ] capacitorZ) ∈ (performDCAnalysis stateZ).components)
    ∧ ((dcProcessOne [capacitorZ] capacitorZ).type = "capacitor" →
        (dcProcessOne [capacitorZ] capacitorZ).values = { voltage := 0, current := 0, power := 0 }) :=
  ⟨by simp [performDCAnalysis, dcLoop, stateZ, stateY], (dc_capacitor_open_inductor_short stateZ _
    (by simp [performDCAnalysis, dcLoop, stateZ, stateY])).1⟩

lemma dcProcessOne_ground (all : List Component) (c : Component) :
    (dcProcessOne all c).type = "ground" → (dcProcessOne all c).values.voltage = 1 / 2 := by
  unfold dcProcessOne
  split_ifs with h1 h2 h3 h4
  all_goals simp_all
  all_goals norm_num

/-- Claim C8 (amended): a ground component's voltage is not an invariant 0 — the
worker has no ground handling at all.  In DC mode every step routes a ground
component through the generic fallback branch, which sets its `values.voltage`
to 0.5 V; in transient mode the executed step carries every component's
`values` (ground included) through unchanged. -/
theorem ground_voltage_by_mode (st : SimState) (c : Component) :
    (c ∈ (performDCAnalysis st).components → c.type = "ground" → c.values.voltage = 1 / 2)
    ∧ ((performTransientAnalysis st).components.map (fun x => x.values)
        = st.components.map (fun x => x.values)) := by
  constructor
  · intro hc
    have hmem : c ∈ dcLoop [] st.components := by
      simpa [performDCAnalysis] using hc
    exact dcLoop_pred (fun x => x.type = "ground" → x.values.voltage = 1 / 2)
      dcProcessOne_ground st.components [] (by simp) c hmem
  · exact (performTransientAnalysis_map_values st).1

/-- Claim C8, counterexample: one DC step on a circuit holding only a ground
component sets the ground's `values.voltage` to 0.5, not 0. -/
theorem ground_voltage_counterexample :
    ((performDCAnalysis stateG).components.map (fun c => c.values.voltage)) = [1 / 2]
    ∧ ((1 : ℚ) / 2 ≠ 0) := by
  constructor
  · norm_num +decide [performDCAnalysis, dcLoop, dcProcessOne, stateG, stateY, groundZ,
      defaultComponent]
  · norm_num

theorem ground_voltage_by_mode_witness :
    ((dcProcessOne [groundZ] groundZ).values.voltage = 1 / 2)
    ∧ ((performTransientAnalysis stateG).components.map (fun x => x.values)
        = stateG.components.map (fun x => x.values)) :=
  ⟨(ground_voltage_by_mode stateG (dcProcessOne [groundZ] groundZ)).1
      (by simp [performDCAnalysis, dcLoop, stateG, stateY])
      (by norm_num +decide [dcProcessOne, groundZ, defaultComponent]),
   (ground_voltage_by_mode stateG groundZ).2⟩

/-- Claim C9: calling stop from any state zeroes every component's values and
every wire's current and voltage, clears the running flag, and cancels the
periodic step loop. -/
theorem stop_zeroes_state (st : SimState) :
    (∀ c ∈ (stopSimulation st).components,
      c.values = { voltage := 0, current := 0, power := 0 })
    ∧ (∀ w ∈ (stopSimulation st).wires, w.current = 0 ∧ w.voltage = 0)
    ∧ (stopSimulation st).running = false
    ∧ (stopSimulation st).interval = none := by
  unfold stopSimulation resetSimulationValues
  dsimp only
  refine ⟨?_, ?_, ?_, ?_⟩
  · intro c hc
    split_ifs at hc <;> (simp at hc; obtain ⟨a, -, rfl⟩ := hc; rfl)
  · intro w hw
    split_ifs at hw <;> (simp at hw; obtain ⟨a, -, rfl⟩ := hw; simp)
  · split_ifs <;> rfl
  · split_ifs with h
    · rfl
    · simpa using h

theorem stop_zeroes_state_witness :
    ({ capacitorZ with values := { voltage := 0, current := 0, power := 0 } }).values
      = { voltage := 0, current := 0, power := 0 }
    ∧ ({ wireZ with current := 0, voltage := 0 }).current = 0
    ∧ (stopSimulation stateS).running = false
    ∧ (stopSimulation stateS).interval = none :=
  ⟨(stop_zeroes_state stateS).1 _ (by simp [stopSimulation, resetSimulationValues, stateS, stateY]),
   ((stop_zeroes_state stateS).2.1 _
      (by simp [stopSimulation, resetSimulationValues, stateS, stateY])).1,
   (stop_zeroes_state stateS).2.2.1,
   (stop_zeroes_state stateS).2.2.2⟩

/-- Claim C10: `updateSimulationSpeed` with a non-positive speed returns before
touching anything, so the whole simulation state — stored speed, step interval,
simulated time, every component and wire value — is unchanged. -/
theorem update_speed_rejects_nonpositive (speed : ℚ) (st : SimState)
    (h : speed ≤ 0) : updateSimulationSpeed speed st = st := by
  unfold updateSimulationSpeed
  rw [if_pos h]

theorem update_speed_rejects_nonpositive_witness :
    ((0 : ℚ) ≤ 0) ∧ updateSimulationSpeed 0 stateY = stateY :=
  ⟨by norm_num, update_speed_rejects_nonpositive 0 stateY (by norm_num)⟩

lemma getD_map_of_lt {α β : Type} (f : α → β) (l : List α) (i : ℕ) (d : β) (d' : α)
    (hi : i < l.length) : (l.map f).getD i d = f (l.getD i d') := by
  induction l generalizing i with
  | nil => simp at hi
  | cons a as ih =>
    cases i with
    | zero => rfl
    | succ j =>
      simp only [List.map_cons, List.getD_cons_succ]
      exact ih j (by simpa using hi)

lemma kvlApplyElement_length (comps : List Component) (e : LoopElement) (corr : ℚ) :
    (kvlApplyElement comps e corr).length = comps.length := by
  unfold kvlApplyElement
  split <;> simp

lemma kvlApplyElement_getD (comps : List Component) (e : LoopElement) (corr : ℚ)
    (i : ℕ) (hi : i < comps.length) :
    ((kvlApplyElement comps e corr).getD i defaultComponent).id
      = (comps.getD i defaultComponent).id
    ∧ ((kvlApplyElement comps e corr).getD i defaultComponent).type
      = (comps.getD i defaultComponent).type
    ∧ ((kvlApplyElement comps e corr).getD i defaultComponent).values.voltage
      = (comps.getD i defaultComponent).values.voltage -
          (if e.type == "component" && (e.id == (comps.getD i defaultComponent).id)
              && !isSourceType (comps.getD i defaultComponent).type
           then e.direction else 0) * corr := by
  unfold kvlApplyElement
  by_cases hcomp : (e.type == "component") = true
  · rw [if_pos hcomp, getD_map_of_lt _ _ _ _ defaultComponent hi]
    by_cases hcond : ((comps.getD i defaultComponent).id == e.id
        && !isSourceType (comps.getD i defaultComponent).type) = true
    · rw [if_pos hcond]
      refine ⟨rfl, rfl, ?_⟩
      simp only [Bool.and_eq_true, beq_iff_eq] at hcond
      have hpos : (e.type == "component" && (e.id == (comps.getD i defaultComponent).id)
          && !isSourceType (comps.getD i defaultComponent).type) = true := by
        simp only [Bool.and_eq_true, beq_iff_eq]
        exact ⟨⟨by simpa using hcomp, hcond.1.symm⟩, hcond.2⟩
      rw [if_pos hpos]
    · rw [if_neg hcond]
      refine ⟨rfl, rfl, ?_⟩
      have hneg : ¬(e.type == "component" && (e.id == (comps.getD i defaultComponent).id)
          && !isSourceType (comps.getD i defaultComponent).type) = true := by
        simp only [Bool.and_eq_true, beq_iff_eq]
        intro hx
        apply hcond
        simp only [Bool.and_eq_true, beq_iff_eq]
        exact ⟨hx.1.2.symm, hx.2⟩
      rw [if_neg hneg, zero_mul, sub_zero]
  · rw [if_neg hcomp]
    refine ⟨rfl, rfl, ?_⟩
    have hneg : ¬(e.type == "component" && (e.id == (comps.getD i defaultComponent).id)
        && !isSourceType (comps.getD i defaultComponent).type) = true := by
      simp only [Bool.and_eq_true]
      intro hx
      exact hcomp hx.1.1
    rw [if_neg hneg, zero_mul, sub_zero]

lemma kvlFold_getD (corr : ℚ) (elems : List LoopElement) :
    ∀ (comps : List Component) (i : ℕ), i < comps.length →
      ((elems.foldl (fun cs e => kvlApplyElement cs e corr) comps).length = comps.length)
      ∧ ((elems.foldl (fun cs e => kvlApplyElement cs e corr) comps).getD i
          defaultComponent).id = (comps.getD i defaultComponent).id
      ∧ ((elems.foldl (fun cs e => kvlApplyElement cs e corr) comps).getD i
          defaultComponent).type = (comps.getD i defaultComponent).type
      ∧ ((elems.foldl (fun cs e => kvlApplyElement cs e corr) comps).getD i
          defaultComponent).values.voltage
        = (comps.getD i defaultComponent).values.voltage -
            (if isSourceType (comps.getD i defaultComponent).type then 0
             else dirSum elems (comps.getD i defaultComponent).id) * corr := by
  induction elems with
  | nil =>
    intro comps i hi
    refine ⟨rfl, rfl, rfl, ?_⟩
    simp [dirSum, ite_self]
  | cons e es ih =>
    intro comps i hi
    have hlen := kvlApplyElement_length comps e corr
    have hstep := kvlApplyElement_getD comps e corr i hi
    have hi' : i < (kvlApplyElement comps e corr).length := by rw [hlen]; exact hi
    have hrec := ih (kvlApplyElement comps e corr) i hi'
    simp only [List.foldl_cons]
    refine ⟨by rw [hrec.1, hlen], by rw [hrec.2.1, hstep.1],
      by rw [hrec.2.2.1, hstep.2.1], ?_⟩
    rw [hrec.2.2.2, hstep.2.1, hstep.1, hstep.2.2]
    by_cases hsrc : isSourceType (comps.getD i defaultComponent).type = true
    · have hneg : (e.type == "component" && (e.id == (comps.getD i defaultComponent).id)
          && !isSourceType (comps.getD i defaultComponent).type) = false := by
        rw [hsrc]
        simp
      rw [hneg, if_pos hsrc, if_pos hsrc]
      norm_num
    · rw [Bool.not_eq_true] at hsrc
      have hcollapse : (e.type == "component" && (e.id == (comps.getD i defaultComponent).id)
          && !isSourceType (comps.getD i defaultComponent).type)
          = (e.type == "component" && (e.id == (comps.getD i defaultComponent).id)) := by
        rw [hsrc]
        simp
      have hsrcneg : ¬(isSourceType (comps.getD i defaultComponent).type = true) := by
        rw [hsrc]
        simp
      rw [hcollapse, if_neg hsrcneg, if_neg hsrcneg, dirSum]
      ring

lemma kvlLoop_getD (comps : List Component) (loop : List LoopElement) (i : ℕ)
    (hi : i < comps.length) :
    ((kvlLoop comps loop).length = comps.length)
    ∧ ((kvlLoop comps loop).getD i defaultComponent).id = (comps.getD i defaultComponent).id
    ∧ ((kvlLoop comps loop).getD i defaultComponent).type = (comps.getD i defaultComponent).type
    ∧ (isSourceType (comps.getD i defaultComponent).type = true →
        ((kvlLoop comps loop).getD i defaultComponent).values.voltage
          = (comps.getD i defaultComponent).values.voltage)
    ∧ (|loopVoltageSum comps loop| > 0.001 →
        isSourceType (comps.getD i defaultComponent).type = false →
        ((kvlLoop comps loop).getD i defaultComponent).values.voltage
          = (comps.getD i defaultComponent).values.voltage -
              dirSum loop (comps.getD i defaultComponent).id
                * (loopVoltageSum comps loop / (loop.length : ℚ))) := by
  unfold kvlLoop
  dsimp only
  split_ifs with h
  · have hf := kvlFold_getD (loopVoltageSum comps loop / (loop.length : ℚ)) loop comps i hi
    refine ⟨hf.1, hf.2.1, hf.2.2.1, ?_, ?_⟩
    · intro hsrc
      rw [hf.2.2.2, if_pos hsrc, zero_mul, sub_zero]
    · intro _ hsrc
      have hneg : ¬(isSourceType (comps.getD i defaultComponent).type = true) := by
        rw [hsrc]
        simp
      rw [hf.2.2.2, if_neg hneg]
  · exact ⟨rfl, rfl, rfl, fun _ => rfl, fun habs _ => absurd habs h⟩

lemma kvlLoopsFold (loops : List (List LoopElement)) :
    ∀ (comps : List Component) (i : ℕ), i < comps.length →
      ((loops.foldl kvlLoop comps).length = comps.length)
      ∧ ((loops.foldl kvlLoop comps).getD i defaultComponent).type
        = (comps.getD i defaultComponent).type
      ∧ (isSourceType (comps.getD i defaultComponent).type = true →
          ((loops.foldl kvlLoop comps).getD i defaultComponent).values.voltage
            = (comps.getD i defaultComponent).values.voltage) := by
  induction loops with
  | nil => intro comps i hi; exact ⟨rfl, rfl, fun _ => rfl⟩
  | cons l ls ih =>
    intro comps i hi
    have hstep := kvlLoop_getD comps l i hi
    have hi' : i < (kvlLoop comps l).length := by rw [hstep.1]; exact hi
    have hrec := ih (kvlLoop comps l) i hi'
    simp only [List.foldl_cons]
    refine ⟨by rw [hrec.1, hstep.1], by rw [hrec.2.1, hstep.2.2.1], ?_⟩
    intro hsrc
    rw [hrec.2.2 (by rw [hstep.2.2.1]; exact hsrc), hstep.2.2.2.1 hsrc]

lemma kclApplyConnection_voltage (cw : List Component × List Wire)
    (con : NodeConnection) (corr : ℚ) (i : ℕ) (hi : i < cw.1.length) :
    ((kclApplyConnection cw con corr).1.length = cw.1.length)
    ∧ ((kclApplyConnection cw con corr).1.getD i defaultComponent).values.voltage
      = (cw.1.getD i defaultComponent).values.voltage
    ∧ ((kclApplyConnection cw con corr).1.getD i defaultComponent).type
      = (cw.1.getD i defaultComponent).type := by
  unfold kclApplyConnection
  split
  · refine ⟨by simp, ?_, ?_⟩ <;>
      · rw [getD_map_of_lt _ _ _ _ defaultComponent hi]
        split <;> simp
  · split
    · exact ⟨rfl, rfl, rfl⟩
    · exact ⟨rfl, rfl, rfl⟩

lemma kclConnFold_voltage (corr : ℚ) (cons : List NodeConnection) :
    ∀ (cw : List Component × List Wire) (i : ℕ), i < cw.1.length →
      ((cons.foldl (fun acc con => kclApplyConnection acc con corr) cw).1.length
        = cw.1.length)
      ∧ ((cons.foldl (fun acc con => kclApplyConnection acc con corr) cw).1.getD i
          defaultComponent).values.voltage = (cw.1.getD i defaultComponent).values.voltage
      ∧ ((cons.foldl (fun acc con => kclApplyConnection acc con corr) cw).1.getD i
          defaultComponent).type = (cw.1.getD i defaultComponent).type := by
  induction cons with
  | nil => intro cw i hi; exact ⟨rfl, rfl, rfl⟩
  | cons con rest ih =>
    intro cw i hi
    have hstep := kclApplyConnection_voltage cw con corr i hi
    have hi' : i < (kclApplyConnection cw con corr).1.length := by rw [hstep.1]; exact hi
    have hrec := ih (kclApplyConnection cw con corr) i hi'
    simp only [List.foldl_cons]
    exact ⟨by rw [hrec.1, hstep.1], by rw [hrec.2.1, hstep.2.1],
      by rw [hrec.2.2, hstep.2.2]⟩

lemma kclNode_voltage (cw : List Component × List Wire) (node : CircuitNode)
    (i : ℕ) (hi : i < cw.1.length) :
    ((kclNode cw node).1.length = cw.1.length)
    ∧ ((kclNode cw node).1.getD i defaultComponent).values.voltage
      = (cw.1.getD i defaultComponent).values.voltage
    ∧ ((kclNode cw node).1.getD i defaultComponent).type
      = (cw.1.getD i defaultComponent).type := by
  unfold kclNode
  dsimp only
  split_ifs with h
  · exact kclConnFold_voltage _ node.connections cw i hi
  · exact ⟨rfl, rfl, rfl⟩

lemma kclNodesFold_voltage (nodes : List CircuitNode) :
    ∀ (cw : List Component × List Wire) (i : ℕ), i < cw.1.length →
      ((nodes.foldl kclNode cw).1.length = cw.1.length)
      ∧ ((nodes.foldl kclNode cw).1.getD i defaultComponent).values.voltage
        = (cw.1.getD i defaultComponent).values.voltage := by
  induction nodes with
  | nil => intro cw i hi; exact ⟨rfl, rfl⟩
  | cons node rest ih =>
    intro cw i hi
    have hstep := kclNode_voltage cw node i hi
    have hi' : i < (kclNode cw node).1.length := by rw [hstep.1]; exact hi
    have hrec := ih (kclNode cw node) i hi'
    simp only [List.foldl_cons]
    exact ⟨by rw [hrec.1, hstep.1], by rw [hrec.2, hstep.2.1]⟩

/-- Claim C5: for every voltage loop discovered by the conservation-law
corrector whose signed voltage sum exceeds 0.001 V in magnitude, the KVL pass
subtracts `direction * (sum / loop length)` from the voltage of each non-source
occurrence of a component in the loop (a component occurring with direction sum
`d` loses `d * sum / length`), and the full corrector — KVL over every loop and
KCL over every node — never modifies the voltage of any voltage-source or
current-source component, for any input. -/
theorem conservation_corrector_kvl (comps : List Component) (ws : List Wire)
    (loops : List (List LoopElement)) (nodes : List CircuitNode)
    (loop : List LoopElement) (i : ℕ) (hi : i < comps.length) :
    (isSourceType (comps.getD i defaultComponent).type = true →
      ((applyConservationLaws comps ws loops nodes).1.getD i defaultComponent).values.voltage
        = (comps.getD i defaultComponent).values.voltage)
    ∧ (|loopVoltageSum comps loop| > 0.001 →
        isSourceType (comps.getD i defaultComponent).type = false →
        ((kvlLoop comps loop).getD i defaultComponent).values.voltage
          = (comps.getD i defaultComponent).values.voltage -
              dirSum loop (comps.getD i defaultComponent).id
                * (loopVoltageSum comps loop / (loop.length : ℚ))) := by
  constructor
  · intro hsrc
    have hkvl := kvlLoopsFold loops comps i hi
    have hi1 : i < (loops.foldl kvlLoop comps, ws).1.length := by
      simpa [hkvl.1] using hi
    have hkcl := kclNodesFold_voltage nodes (loops.foldl kvlLoop comps, ws) i hi1
    unfold applyConservationLaws
    rw [hkcl.2]
    exact hkvl.2.2 hsrc
  · intro hsum hsrc
    exact (kvlLoop_getD comps loop i hi).2.2.2.2 hsum hsrc

theorem conservation_corrector_kvl_witness :
    (|loopVoltageSum [resistorK, sourceK] loopK| > 0.001)
    ∧ ((kvlLoop [resistorK, sourceK] loopK).getD 0 defaultComponent).values.voltage
        = ([resistorK, sourceK].getD 0 defaultComponent).values.voltage -
            dirSum loopK (([resistorK, sourceK].getD 0 defaultComponent).id)
              * (loopVoltageSum [resistorK, sourceK] loopK / ((loopK.length : ℕ) : ℚ)) :=
  ⟨by norm_num +decide [loopVoltageSum, loopK, componentVoltageById, findComponent,
      resistorK, sourceK, defaultComponent],
   (conservation_corrector_kvl [resistorK, sourceK] [] [] [] loopK 0 (by norm_num)).2
     (by norm_num +decide [loopVoltageSum, loopK, componentVoltageById, findComponent,
        resistorK, sourceK, defaultComponent])
     (by norm_num +decide [isSourceType, resistorK, defaultComponent])⟩

end CircuitSim
